import Mathlib

/-!
Shallow embedding of the `finlex_downloader` package (Python) used to check
the natural-language specification's claims.

Strings of the Python source are modelled as `List Char`.  Python's
`urllib.parse.unquote` is modelled for single-byte percent escapes (all
claims only involve ASCII escapes such as `%40`); multi-byte UTF-8 escape
sequences are outside the modelled domain.  The regular expressions of
`urls.py` are anchored (`re.match` … `$`) and segment-based
(`[^/]+`, `\d+`), so they are modelled by splitting the path on `'/'`;
`\d` is modelled as the ASCII digits.  `pathlib.Path` joining is modelled
by splitting each argument on `'/'` and dropping empty and single-dot
components, which is pathlib's normalisation for relative paths.
-/

namespace Finlex

/-- Strings of the Python source, modelled as lists of characters. -/
abbrev Str := List Char

/-- Value of a hexadecimal digit character, as used by percent-decoding. -/
def hexVal (c : Char) : Option Nat :=
  if '0' ≤ c ∧ c ≤ '9' then some (c.toNat - ('0').toNat)
  else if 'a' ≤ c ∧ c ≤ 'f' then some (c.toNat - ('a').toNat + 10)
  else if 'A' ≤ c ∧ c ≤ 'F' then some (c.toNat - ('A').toNat + 10)
  else none

/-- Model of `urllib.parse.unquote`: decode each `%XX` hexadecimal escape
to the character with that code; a `%` not followed by two hexadecimal
digits is kept verbatim (a trailing `%` or `%X` cannot start an escape, so
the remainder is returned unchanged). -/
def unquote : Str → Str
  | [] => []
  | c :: rest =>
    if c = '%' then
      match rest with
      | a :: b :: tl =>
        match hexVal a, hexVal b with
        | some hi, some lo => Char.ofNat (16 * hi + lo) :: unquote tl
        | _, _ => c :: unquote (a :: b :: tl)
      | tl => c :: tl
    else c :: unquote rest

/-- Split a string at every `'/'` (the resulting segments never contain
`'/'`, and the list is never empty). -/
def splitSlash : Str → List Str
  | [] => [[]]
  | c :: rest =>
    if c = '/' then [] :: splitSlash rest
    else
      match splitSlash rest with
      | s :: ss => (c :: s) :: ss
      | [] => [[c]]

/-- Join segments with `'/'` separators (inverse of `splitSlash` on
slash-free segments). -/
def joinSlash : List Str → Str
  | [] => []
  | [s] => s
  | s :: rest => s ++ '/' :: joinSlash rest

theorem splitSlash_ne_nil (l : Str) : splitSlash l ≠ [] := by
  induction l with
  | nil => simp [splitSlash]
  | cons c rest ih =>
    simp only [splitSlash]
    split
    · simp
    · cases h : splitSlash rest with
      | nil => exact absurd h ih
      | cons s ss => simp

theorem splitSlash_no_slash {s : Str} (h : '/' ∉ s) : splitSlash s = [s] := by
  induction s with
  | nil => simp [splitSlash]
  | cons c rest ih =>
    have hc : c ≠ '/' := fun hc => h (hc ▸ List.mem_cons_self c rest)
    have hr : '/' ∉ rest := fun hm => h (List.mem_cons_of_mem c hm)
    simp [splitSlash, hc, ih hr]

theorem splitSlash_append {s : Str} (t : Str) (h : '/' ∉ s) :
    splitSlash (s ++ '/' :: t) = s :: splitSlash t := by
  induction s with
  | nil => simp [splitSlash]
  | cons c rest ih =>
    have hc : c ≠ '/' := fun hc => h (hc ▸ List.mem_cons_self c rest)
    have hr : '/' ∉ rest := fun hm => h (List.mem_cons_of_mem c hm)
    simp [splitSlash, hc, ih hr]

theorem splitSlash_joinSlash {segs : List Str} (hne : segs ≠ [])
    (h : ∀ s ∈ segs, '/' ∉ s) : splitSlash (joinSlash segs) = segs := by
  induction segs with
  | nil => exact absurd rfl hne
  | cons s rest ih =>
    cases rest with
    | nil => exact splitSlash_no_slash (h s (List.mem_cons_self s []))
    | cons s2 r2 =>
      have hs : '/' ∉ s := h s (List.mem_cons_self s _)
      have hrest : ∀ x ∈ s2 :: r2, '/' ∉ x := fun x hx => h x (List.mem_cons_of_mem s hx)
      calc splitSlash (joinSlash (s :: s2 :: r2))
          = splitSlash (s ++ '/' :: joinSlash (s2 :: r2)) := by simp [joinSlash]
        _ = s :: splitSlash (joinSlash (s2 :: r2)) := splitSlash_append _ hs
        _ = s :: s2 :: r2 := by rw [ih (by simp) hrest]

theorem unquote_cons_of_ne {c : Char} (rest : Str) (hc : c ≠ '%') :
    unquote (c :: rest) = c :: unquote rest := by
  rw [unquote.eq_def]
  simp [hc]

theorem unquote_no_pct {l : Str} (h : '%' ∉ l) : unquote l = l := by
  induction l with
  | nil => rfl
  | cons c rest ih =>
    have hc : c ≠ '%' := fun hc => h (hc ▸ List.mem_cons_self c rest)
    have hr : '%' ∉ rest := fun hm => h (List.mem_cons_of_mem c hm)
    rw [unquote_cons_of_ne rest hc, ih hr]

/-! ### urls.py -/

/-- Segment literal `akn`. -/
def aknSeg : Str := ['a', 'k', 'n']

/-- Segment literal `fi`. -/
def fiSeg : Str := ['f', 'i']

/-- Segment literal `act`. -/
def actSeg : Str := ['a', 'c', 't']

/-- Segment literal `judgment`. -/
def judgmentSeg : Str := "judgment".toList

/-- Segment literal `doc`. -/
def docSeg : Str := ['d', 'o', 'c']

/-- Segment literal `authority-regulation`. -/
def authRegSeg : Str := "authority-regulation".toList

/-- The prefix `http` that selects the full-URL branch of `parse_akn_uri`. -/
def httpPrefix : Str := "http".toList

/-- The API-root prefix `/finlex/avoindata/v1` stripped from full URLs. -/
def v1Prefix : Str := "/finlex/avoindata/v1".toList

/-- Mirror of the `DocumentInfo` dataclass of `urls.py`. -/
structure DocumentInfo where
  category : Str
  document_type : Str
  year : Str
  number : Str
  lang_and_version : Str
  authority : Option Str := none
  deriving DecidableEq, Repr

/-- Model of joining path components as `pathlib.Path(...)` does for
relative paths: each argument is split on `'/'`, and empty and single-dot
components are collapsed away.  (Absolute-path arguments, which would
reset the path, do not occur in this code base: every joined component is
a slash-free token.) -/
def pathParts : List Str → List Str
  | [] => []
  | s :: rest =>
    (splitSlash s).filter (fun p => !(p == []) && !(p == ['.'])) ++ pathParts rest

/-- The component sequence passed to `pathlib.Path` by
`DocumentInfo.folder_path`; the authority component is included exactly
when `self.authority` is truthy (present and non-empty). -/
def folderSegs (info : DocumentInfo) : List Str :=
  match info.authority with
  | some a =>
    if a ≠ [] then
      [info.category, info.document_type, a, info.year, info.number, info.lang_and_version]
    else
      [info.category, info.document_type, info.year, info.number, info.lang_and_version]
  | none =>
    [info.category, info.document_type, info.year, info.number, info.lang_and_version]

/-- Mirror of `DocumentInfo.folder_path`: the parts of the generated local
folder path. -/
def folder_path (info : DocumentInfo) : List Str :=
  pathParts (folderSegs info)

/-- Segment-level form of `AUTHORITY_PATTERN.match`, applied to the
`'/'`-split segments of the path. -/
def authMatchSegs : List Str → Option DocumentInfo
  | [e, s1, s2, s3, s4, auth, year, num, lang] =>
    if e = [] ∧ s1 = aknSeg ∧ s2 = fiSeg ∧ s3 = docSeg ∧ s4 = authRegSeg ∧
        auth ≠ [] ∧ year ≠ [] ∧ year.all Char.isDigit ∧ num ≠ [] ∧ lang ≠ [] then
      some { category := docSeg, document_type := authRegSeg, year := year,
             number := num, lang_and_version := lang, authority := some auth }
    else none
  | _ => none

/-- Model of `AUTHORITY_PATTERN.match`: the anchored regular expression
`/akn/fi/doc/authority-regulation/([^/]+)/(\d+)/([^/]+)/([^/]+)$`,
expressed over the `'/'`-split segments of the path. -/
def authMatch (path : Str) : Option DocumentInfo :=
  authMatchSegs (splitSlash path)

/-- Segment-level form of `STANDARD_PATTERN.match`, applied to the
`'/'`-split segments of the path. -/
def stdMatchSegs : List Str → Option DocumentInfo
  | [e, s1, s2, cat, ty, year, num, lang] =>
    if e = [] ∧ s1 = aknSeg ∧ s2 = fiSeg ∧
        (cat = actSeg ∨ cat = judgmentSeg ∨ cat = docSeg) ∧
        ty ≠ [] ∧ year ≠ [] ∧ year.all Char.isDigit ∧ num ≠ [] ∧ lang ≠ [] then
      some { category := cat, document_type := ty, year := year,
             number := num, lang_and_version := lang, authority := none }
    else none
  | _ => none

/-- Model of `STANDARD_PATTERN.match`: the anchored regular expression
`/akn/fi/(act|judgment|doc)/([^/]+)/(\d+)/([^/]+)/([^/]+)$`, expressed
over the `'/'`-split segments of the path. -/
def stdMatch (path : Str) : Option DocumentInfo :=
  stdMatchSegs (splitSlash path)

/-- Model of `urllib.parse.urlparse(s).path` for `http(s)` URLs: drop the
scheme up to the first `':'`, skip a `//`-introduced network location up
to the next `'/'`, `'?'` or `'#'`, and keep the remainder up to a query
or fragment marker.  This is the value `urlparse` returns when it does
not raise; the input domain on which the real `urlparse` raises
`ValueError` instead (a bracket-mismatched network location) is modelled
separately by `urlparseRaises`, and `parse_akn_uri_exc` combines the
two into the full model of the resolver call. -/
def urlparsePath (s : Str) : Str :=
  let afterScheme := if (':') ∈ s then ((s.dropWhile (fun c => !(c == ':'))).drop 1) else s
  let afterNet :=
    if (['/', '/'] : Str).isPrefixOf afterScheme then
      (afterScheme.drop 2).dropWhile (fun c => !(c == '/' || c == '?' || c == '#'))
    else afterScheme
  afterNet.takeWhile (fun c => !(c == '?' || c == '#'))

/-- Position just past the last occurrence of `pat` in `s`, when `pat`
occurs; models `s.split(pat)[-1]` for the non-self-overlapping pattern
`/finlex/avoindata/v1`. -/
def lastOccEnd (pat s : Str) : Option Nat :=
  ((List.range (s.length + 1)).filter (fun i => pat.isPrefixOf (s.drop i))).getLast?

/-- Model of lines 69–70 of `urls.py`: if `/finlex/avoindata/v1` occurs in
the path, keep only what follows its last occurrence. -/
def stripV1 (s : Str) : Str :=
  match lastOccEnd v1Prefix s with
  | some i => s.drop (i + v1Prefix.length)
  | none => s

/-- The path that `parse_akn_uri` matches the two grammars against
(lines 64–72 of `urls.py`): for a full URL, the percent-decoded URL path
with the API-root prefix stripped; for a bare path, the percent-decoded
input. -/
def derivePath (uri : Str) : Str :=
  if httpPrefix.isPrefixOf uri then stripV1 (unquote (urlparsePath uri))
  else unquote uri

/-- Mirror of `parse_akn_uri` of `urls.py` on the inputs where the
unguarded `urlparse` call does not raise: derive the path, try the
authority-regulation pattern first, then the standard pattern.
`parse_akn_uri_exc` is the full model including the raising inputs. -/
def parse_akn_uri (uri : Str) : Option DocumentInfo :=
  let path := derivePath uri
  match authMatch path with
  | some info => some info
  | none => stdMatch path

/-- Mirror of `build_api_path` of `urls.py`; the authority segment is
included exactly when `info.authority` is truthy. -/
def build_api_path (info : DocumentInfo) : Str :=
  match info.authority with
  | some a =>
    if a ≠ [] then
      joinSlash [[], aknSeg, fiSeg, info.category, info.document_type, a,
        info.year, info.number, info.lang_and_version]
    else
      joinSlash [[], aknSeg, fiSeg, info.category, info.document_type,
        info.year, info.number, info.lang_and_version]
  | none =>
    joinSlash [[], aknSeg, fiSeg, info.category, info.document_type,
      info.year, info.number, info.lang_and_version]

/-- Mirror of `build_list_path` of `urls.py` (both branches produce the
same string). -/
def build_list_path (category document_type : Str) : Str :=
  joinSlash [[], aknSeg, fiSeg, category, document_type, ['l', 'i', 's', 't']]

/-! ### listing.py -/

/-- Mirror of the `ListItem` dataclass of `listing.py`. -/
structure ListItem where
  akn_uri : Str
  status : Str
  deriving DecidableEq, Repr

/-- Mirror of the `ListConfig` dataclass of `listing.py`.  Python integers
are modelled as `Int`; `None` as `none`. -/
structure ListConfig where
  category : Str
  document_type : Str
  lang_and_version : Str
  start_year : Option Int := none
  end_year : Option Int := none
  limit : Int := 10
  max_pages : Option Int := none
  deriving DecidableEq, Repr

/-- One page response of the transport, as observed by `list_documents`:
the HTTP status code, and the parsed JSON body (`none` models a body that
fails to parse, i.e. `response.json()` raising `ValueError`).  Each item
of the body carries the `akn_uri` and `status` values that
`list_documents` reads out of it. -/
structure PageResponse where
  status_code : Nat
  body : Option (List (Str × Str))
  deriving DecidableEq, Repr

/-- The query parameters sent with one listing request (the constant
`format=json` entry is omitted from the model).  A year parameter is
included only when the corresponding config field is truthy (present and
non-zero), mirroring `if config.start_year:`. -/
structure ListParams where
  page : Int
  limit : Int
  langAndVersion : Str
  startYear : Option Int
  endYear : Option Int
  deriving DecidableEq, Repr

/-- Python truthiness of an optional-integer config field: `None` and `0`
are falsy. -/
def truthyYear : Option Int → Option Int
  | none => none
  | some y => if y = 0 then none else some y

/-- The parameters dict built for one page request in `list_documents`. -/
def mkParams (config : ListConfig) (page : Int) : ListParams :=
  { page := page, limit := config.limit, langAndVersion := config.lang_and_version,
    startYear := truthyYear config.start_year, endYear := truthyYear config.end_year }

/-- Python truthiness of `config.max_pages and page > config.max_pages`. -/
def maxPagesReached (mp : Option Int) (page : Int) : Bool :=
  match mp with
  | none => false
  | some m => if m = 0 then false else decide (page > m)

/-- One `ListItem` per JSON item, as yielded by `list_documents`. -/
def mkItem (pr : Str × Str) : ListItem :=
  { akn_uri := pr.1, status := pr.2 }

/-- The paging loop of `list_documents`, starting at `page`, driven by a
transport `t` mapping a page number to its response.  Returns the yielded
items and the parameter sets of the requests actually issued, in order.
`fuel` bounds the number of loop iterations so the model is total; every
claim quantifies over sufficient fuel. -/
def listLoop (t : Int → PageResponse) (config : ListConfig) :
    Int → Nat → List ListItem × List ListParams
  | _, 0 => ([], [])
  | page, fuel + 1 =>
    if maxPagesReached config.max_pages page then ([], [])
    else if (t page).status_code ≠ 200 then ([], [mkParams config page])
    else
      match (t page).body with
      | none => ([], [mkParams config page])
      | some items =>
        if items = [] then ([], [mkParams config page])
        else if (items.length : Int) < config.limit then
          (items.map mkItem, [mkParams config page])
        else
          (items.map mkItem ++ (listLoop t config (page + 1) fuel).1,
           mkParams config page :: (listLoop t config (page + 1) fuel).2)

/-- Mirror of `list_documents` of `listing.py`: run the paging loop from
page 1. -/
def list_documents (t : Int → PageResponse) (config : ListConfig) (fuel : Nat) :
    List ListItem × List ListParams :=
  listLoop t config 1 fuel

/-- Mirror of the `ListConfig` construction in `run_download`
(`cli.py` lines 221–229): the CLI clamps the page size with
`limit=min(args.limit, 10)` before handing the config to the lister. -/
def cli_list_config (argsLimit : Int) (category document_type lang : Str)
    (startYear endYear maxPages : Option Int) : ListConfig :=
  { category := category, document_type := document_type, lang_and_version := lang,
    start_year := startYear, end_year := endYear,
    limit := min argsLimit 10, max_pages := maxPages }

/-! ### downloader.py -/

/-- Element tree of a parsed XML document.  Only what the three XPath
queries of `extract_media_links` observe is modelled: per element its
namespace, tag, attributes (attribute names are namespace-less in this
schema) and child elements.  Text nodes carry no attributes and are
omitted. -/
inductive Xml where
  | elem (ns : Str) (tag : Str) (attrs : List (Str × Str)) (children : List Xml)

/-- The Akoma Ntoso namespace bound to the `akn` prefix in `AKN_NS`. -/
def aknNs : Str := "http://docs.oasis-open.org/legaldocml/ns/akn/3.0".toList

/-- Attribute name `src`. -/
def srcAttr : Str := ['s', 'r', 'c']

/-- Attribute name `href`. -/
def hrefAttr : Str := "href".toList

/-- The literal prefix `media/` that extracted references must carry. -/
def mediaSlashPrefix : Str := "media/".toList

mutual
/-- XPath `//akn:img/@src`: the `src` attribute of every `img` element in
the Akoma Ntoso namespace, in document order. -/
def imgSrcs : Xml → List Str
  | .elem ns tag attrs children =>
    (if ns = aknNs ∧ tag = ['i', 'm', 'g'] then (attrs.lookup srcAttr).toList else []) ++
      imgSrcsL children

/-- `imgSrcs` over a list of sibling elements. -/
def imgSrcsL : List Xml → List Str
  | [] => []
  | x :: xs => imgSrcs x ++ imgSrcsL xs
end

mutual
/-- XPath `//@href` within a subtree: the `href` attribute of the element
itself and of every descendant. -/
def allHrefs : Xml → List Str
  | .elem _ _ attrs children => (attrs.lookup hrefAttr).toList ++ allHrefsL children

/-- `allHrefs` over a list of sibling elements. -/
def allHrefsL : List Xml → List Str
  | [] => []
  | x :: xs => allHrefs x ++ allHrefsL xs
end

mutual
/-- XPath `//akn:attachment//@href`: for every `attachment` element in the
Akoma Ntoso namespace, the `href` attributes of its subtree.  (XPath
returns each attribute node once even when `attachment` elements nest;
this collector may list such a value twice, but the final result of
`extract_media_links` is value-deduplicated either way.) -/
def attHrefs : Xml → List Str
  | .elem ns tag attrs children =>
    (if ns = aknNs ∧ tag = "attachment".toList then
      allHrefs (.elem ns tag attrs children)
    else []) ++ attHrefsL children

/-- `attHrefs` over a list of sibling elements. -/
def attHrefsL : List Xml → List Str
  | [] => []
  | x :: xs => attHrefs x ++ attHrefsL xs
end

mutual
/-- XPath `//akn:ref/@href`: the `href` attribute of every `ref` element
in the Akoma Ntoso namespace, in document order. -/
def refHrefs : Xml → List Str
  | .elem ns tag attrs children =>
    (if ns = aknNs ∧ tag = ['r', 'e', 'f'] then (attrs.lookup hrefAttr).toList else []) ++
      refHrefsL children

/-- `refHrefs` over a list of sibling elements. -/
def refHrefsL : List Xml → List Str
  | [] => []
  | x :: xs => refHrefs x ++ refHrefsL xs
end

/-- All values collected by the three XPath queries of
`extract_media_links`, before the `media/` filter and deduplication. -/
def rawRefs (x : Xml) : List Str :=
  imgSrcs x ++ attHrefs x ++ refHrefs x

/-- Mirror of `extract_media_links` of `downloader.py`.  The raw bytes are
modelled as already parsed: `none` stands for content on which
`etree.fromstring` raises (the exception is caught and the empty `links`
list survives).  `list(set(links))` returns the distinct values in an
unspecified order; the model fixes the first-occurrence order. -/
def extract_media_links (body : Option Xml) : List Str :=
  match body with
  | none => []
  | some x =>
    ((imgSrcs x).filter (fun l => mediaSlashPrefix.isPrefixOf l) ++
     (attHrefs x).filter (fun l => mediaSlashPrefix.isPrefixOf l) ++
     (refHrefs x).filter (fun l => mediaSlashPrefix.isPrefixOf l)).dedup

/-- Mirror of the `DownloadOptions` dataclass of `downloader.py`.  The
output directory is a path, modelled by its component list. -/
structure DownloadOptions where
  output_dir : List Str
  fetch_pdf : Bool := false
  fetch_zip : Bool := false
  fetch_media : Bool := false
  force : Bool := false
  dry_run : Bool := false
  deriving DecidableEq, Repr

/-- The kind of error recorded in `DownloadResult.error` (the
human-readable message text is abstracted to its kind). -/
inductive ErrKind where
  | parseFailed
  | httpStatus (code : Nat)
  | fetchExn
  deriving DecidableEq, Repr

/-- Mirror of the `DownloadResult` dataclass of `downloader.py`; written
file paths are modelled by their component lists.  The wall-clock
`timestamp` field is not modelled. -/
structure DownloadResult where
  akn_uri : Str
  status : Str
  files : List (List Str) := []
  error : Option ErrKind := none
  deriving DecidableEq, Repr

/-- Status literal `success`. -/
def statusSuccess : Str := "success".toList

/-- Status literal `skipped`. -/
def statusSkipped : Str := "skipped".toList

/-- Status literal `dry-run`. -/
def statusDryRun : Str := "dry-run".toList

/-- Status literal `error`. -/
def statusError : Str := "error".toList

/-- The environment one `download_document` call runs in: whether
`xml_path` already exists on disk, and what each transport call returns —
`Except.error` models the client raising an exception, `Except.ok` a
response with the given status code (and, for the primary document, its
parsed body).  Filesystem writes and directory creation are assumed to
succeed. -/
structure FetchEnv where
  xmlExists : Bool
  xmlResp : Except Unit (Nat × Option Xml)
  pdfResp : Except Unit Nat
  zipResp : Except Unit Nat
  mediaResp : Str → Except Unit Nat

/-- Model of `Path(link).name`: the final path component. -/
def pathName (link : Str) : Str :=
  (pathParts [link]).getLast?.getD []

/-- Filename `main.xml`. -/
def mainXml : Str := "main.xml".toList

/-- Filename `main.pdf`. -/
def mainPdf : Str := "main.pdf".toList

/-- Filename `main.zip`. -/
def mainZip : Str := "main.zip".toList

/-- Directory name `media`. -/
def mediaDirName : Str := "media".toList

/-- Mirror of `download_document` of `downloader.py`.  Returns the
`DownloadResult` together with the number of network requests issued
(each `client.get_*` call counts, also when it raises).  Companion
sections are written as separate file-list/request-count definitions per
class; this matches the source, whose companion branches only append to
`result.files` and never touch `result.status`. -/
def download_document (env : FetchEnv) (akn_uri : Str) (options : DownloadOptions) :
    DownloadResult × Nat :=
  match parse_akn_uri akn_uri with
  | none =>
    ({ akn_uri := akn_uri, status := statusError, error := some .parseFailed }, 0)
  | some info =>
    let doc_dir := options.output_dir ++ folder_path info
    let xml_path := doc_dir ++ [mainXml]
    if env.xmlExists && !options.force then
      ({ akn_uri := akn_uri, status := statusSkipped, files := [xml_path] }, 0)
    else if options.dry_run then
      ({ akn_uri := akn_uri, status := statusDryRun }, 0)
    else
      match env.xmlResp with
      | .error _ =>
        ({ akn_uri := akn_uri, status := statusError, error := some .fetchExn }, 1)
      | .ok (code, body) =>
        if code ≠ 200 then
          ({ akn_uri := akn_uri, status := statusError, error := some (.httpStatus code) }, 1)
        else
          let pdfFiles :=
            if options.fetch_pdf then
              match env.pdfResp with
              | .ok 200 => [doc_dir ++ [mainPdf]]
              | _ => []
            else []
          let pdfReqs : Nat := if options.fetch_pdf then 1 else 0
          let zipFiles :=
            if options.fetch_zip then
              match env.zipResp with
              | .ok 200 => [doc_dir ++ [mainZip]]
              | _ => []
            else []
          let zipReqs : Nat := if options.fetch_zip then 1 else 0
          let mediaLinks := if options.fetch_media then extract_media_links body else []
          let mediaFiles :=
            mediaLinks.filterMap (fun link =>
              match env.mediaResp link with
              | .ok 200 => some (doc_dir ++ [mediaDirName, pathName link])
              | _ => none)
          let mediaReqs := mediaLinks.length
          ({ akn_uri := akn_uri, status := statusSuccess,
             files := [xml_path] ++ pdfFiles ++ zipFiles ++ mediaFiles },
           1 + pdfReqs + zipReqs + mediaReqs)

/-! ### state.py -/

/-- Mirror of the `DownloadState` dataclass of `state.py`.  The Python
`set[str]` field `completed_uris` is modelled by a list of its elements
(membership is the set's semantics; the representation order stands for
the unspecified iteration order of the set).  Timestamp strings are kept
as opaque optional strings. -/
structure DownloadState where
  current_category : Option Str := none
  current_document_type : Option Str := none
  current_page : Int := 1
  last_uri : Option Str := none
  completed_uris : List Str := []
  started_at : Option Str := none
  updated_at : Option Str := none
  deriving DecidableEq, Repr

/-- The fresh state `DownloadState()` built from the field defaults. -/
def initState : DownloadState := {}

/-- Model of `set.add`: membership-preserving insertion, a no-op when the
element is already present. -/
def setAdd (l : List Str) (u : Str) : List Str :=
  if u ∈ l then l else l ++ [u]

/-- State transformation of `StateManager.mark_completed` (the
synchronous `save()` call persists `to_dict`, modelled separately). -/
def mark_completed (s : DownloadState) (uri : Str) : DownloadState :=
  { s with completed_uris := setAdd s.completed_uris uri, last_uri := some uri }

/-- Mirror of `StateManager.is_completed`: membership in the completed
set. -/
def is_completed (s : DownloadState) (uri : Str) : Bool :=
  decide (uri ∈ s.completed_uris)

/-- The JSON-serializable dictionary form produced by
`DownloadState.to_dict`; `completed_uris` becomes `list(set)`. -/
structure StateDict where
  current_category : Option Str
  current_document_type : Option Str
  current_page : Int
  last_uri : Option Str
  completed_uris : List Str
  started_at : Option Str
  updated_at : Option Str
  deriving DecidableEq, Repr

/-- Mirror of `DownloadState.to_dict`.  `list(self.completed_uris)`
enumerates the set's elements; the model emits the representation list. -/
def to_dict (s : DownloadState) : StateDict :=
  { current_category := s.current_category,
    current_document_type := s.current_document_type,
    current_page := s.current_page,
    last_uri := s.last_uri,
    completed_uris := s.completed_uris,
    started_at := s.started_at,
    updated_at := s.updated_at }

/-- Mirror of `DownloadState.from_dict`.  `set(data.get("completed_uris",
[]))` collapses duplicates; the model keeps first occurrences. -/
def from_dict (d : StateDict) : DownloadState :=
  { current_category := d.current_category,
    current_document_type := d.current_document_type,
    current_page := d.current_page,
    last_uri := d.last_uri,
    completed_uris := d.completed_uris.dedup,
    started_at := d.started_at,
    updated_at := d.updated_at }

/-! ### Claims -/

theorem mem_foldl_mark {u : Str} :
    ∀ (us : List Str) (s : DownloadState), u ∉ us →
      (u ∈ (us.foldl mark_completed s).completed_uris ↔ u ∈ s.completed_uris) := by
  intro us
  induction us with
  | nil => intro s _; rfl
  | cons v vs ih =>
    intro s hu
    have hv : u ≠ v := fun h => hu (h ▸ List.mem_cons_self v vs)
    have hvs : u ∉ vs := fun h => hu (List.mem_cons_of_mem v h)
    rw [List.foldl_cons, ih (mark_completed s v) hvs]
    simp only [mark_completed, setAdd]
    split
    · rfl
    · simp [hv]

/-- C5: `markCompleted` then `isCompleted` on the same uri is true; a uri
never marked (starting from a fresh store) is not completed; and the
dictionary round-trip `from_dict ∘ to_dict` preserves the completed-uri
set exactly. -/
theorem c5_checkpoint :
    (∀ (s : DownloadState) (u : Str), is_completed (mark_completed s u) u = true)
    ∧ (∀ (us : List Str) (u : Str), u ∉ us →
        is_completed (us.foldl mark_completed initState) u = false)
    ∧ (∀ (s : DownloadState) (u : Str),
        u ∈ (from_dict (to_dict s)).completed_uris ↔ u ∈ s.completed_uris) := by
  refine ⟨?_, ?_, ?_⟩
  · intro s u
    simp only [is_completed, mark_completed, setAdd, decide_eq_true_eq]
    split
    · assumption
    · simp
  · intro us u hu
    simp only [is_completed, decide_eq_false_iff_not]
    rw [mem_foldl_mark us initState hu]
    simp [initState]
  · intro s u
    simp [from_dict, to_dict, List.mem_dedup]

theorem c5_checkpoint_witness :
    is_completed (mark_completed initState ['a']) ['a'] = true
    ∧ (['b'] : Str) ∉ [(['a'] : Str)]
    ∧ is_completed ([(['a'] : Str)].foldl mark_completed initState) ['b'] = false :=
  ⟨c5_checkpoint.1 initState ['a'], by decide,
   c5_checkpoint.2.1 [['a']] ['b'] (by decide)⟩

/-- C7: media-link extraction returns exactly the `media/`-prefixed
values among those collected by the three recognized XPath shapes, with
duplicates removed (the result has no duplicates), and a malformed
document yields the empty list. -/
theorem c7_media_extraction :
    (∀ (x : Xml) (l : Str),
        l ∈ extract_media_links (some x) ↔
          mediaSlashPrefix.isPrefixOf l = true ∧ l ∈ rawRefs x)
    ∧ (∀ b : Option Xml, (extract_media_links b).Nodup)
    ∧ extract_media_links none = [] := by
  refine ⟨?_, ?_, rfl⟩
  · intro x l
    simp only [extract_media_links, rawRefs, List.mem_dedup, List.mem_append,
      List.mem_filter]
    tauto
  · intro b
    cases b with
    | none => simp [extract_media_links]
    | some x => exact List.nodup_dedup _

/-- Concrete bare path with a percent-encoded language marker. -/
def c10uri : Str := "/akn/fi/act/statute/2024/123/fin%40".toList

/-- The coordinates `/akn/fi/act/statute/2024/123/fin@` after decoding. -/
def c10info : DocumentInfo :=
  { category := actSeg, document_type := "statute".toList, year := "2024".toList,
    number := "123".toList, lang_and_version := "fin@".toList, authority := none }

/-- C10: every bare-path input (one not starting with `http`) is
percent-decoded before grammar matching, and in particular
`/akn/fi/act/statute/2024/123/fin%40` resolves with `langAndVersion`
equal to `fin@`. -/
theorem c10_bare_path_decoded :
    (∀ uri : Str, httpPrefix.isPrefixOf uri = false → derivePath uri = unquote uri)
    ∧ parse_akn_uri c10uri = some c10info := by
  constructor
  · intro uri h
    simp [derivePath, h]
  · decide

theorem c10_bare_path_decoded_witness :
    httpPrefix.isPrefixOf c10uri = false ∧ derivePath c10uri = unquote c10uri :=
  ⟨by decide, c10_bare_path_decoded.1 c10uri (by decide)⟩

/-- C4: when `main.xml` already exists and `force` is false, the fetch
returns `skipped` with exactly that path in its file list and issues no
network request; and because the existence gate precedes the dry-run
branch, the same call with `dry_run` set also returns `skipped`. -/
theorem c4_skip_before_dryrun (env : FetchEnv) (uri : Str) (options : DownloadOptions)
    (info : DocumentInfo) (hp : parse_akn_uri uri = some info)
    (hex : env.xmlExists = true) (hf : options.force = false) :
    (download_document env uri options).1.status = statusSkipped
    ∧ (download_document env uri options).1.files
        = [options.output_dir ++ folder_path info ++ [mainXml]]
    ∧ (download_document env uri options).2 = 0
    ∧ (download_document env uri { options with dry_run := true }).1.status
        = statusSkipped := by
  refine ⟨?_, ?_, ?_, ?_⟩ <;> simp [download_document, hp, hex, hf]

/-- An environment whose every transport call raises: a `skipped` outcome
must not depend on any of it. -/
def c4env : FetchEnv :=
  { xmlExists := true, xmlResp := .error (), pdfResp := .error (),
    zipResp := .error (), mediaResp := fun _ => .error () }

/-- Concrete valid uri used by the downloader witnesses. -/
def c4uri : Str := "/akn/fi/act/statute/2024/123/fin@".toList

/-- Default options rooted at `out`. -/
def c4opts : DownloadOptions := { output_dir := [['o', 'u', 't']] }

theorem c4_skip_before_dryrun_witness :
    parse_akn_uri c4uri = some c10info
    ∧ (download_document c4env c4uri c4opts).1.status = statusSkipped
    ∧ (download_document c4env c4uri c4opts).2 = 0
    ∧ (download_document c4env c4uri { c4opts with dry_run := true }).1.status
        = statusSkipped :=
  ⟨by decide,
   (c4_skip_before_dryrun c4env c4uri c4opts c10info (by decide) rfl rfl).1,
   (c4_skip_before_dryrun c4env c4uri c4opts c10info (by decide) rfl rfl).2.2.1,
   (c4_skip_before_dryrun c4env c4uri c4opts c10info (by decide) rfl rfl).2.2.2⟩

/-- C6: once the primary XML fetch returns HTTP 200, the outcome status is
`success`, whatever the PDF, ZIP and media companion fetches return
(non-200 statuses and raised exceptions included) and whichever companion
options are enabled. -/
theorem c6_companion_failures (env : FetchEnv) (uri : Str) (options : DownloadOptions)
    (info : DocumentInfo) (body : Option Xml)
    (hp : parse_akn_uri uri = some info)
    (hskip : (env.xmlExists && !options.force) = false)
    (hdr : options.dry_run = false)
    (hxml : env.xmlResp = .ok (200, body)) :
    (download_document env uri options).1.status = statusSuccess := by
  simp [download_document, hp, hskip, hdr, hxml]

/-- An environment where the primary fetch succeeds while every companion
fetch fails: the PDF with a server error, the ZIP and every media request
by raising. -/
def c6env : FetchEnv :=
  { xmlExists := false, xmlResp := .ok (200, none), pdfResp := .ok 500,
    zipResp := .error (), mediaResp := fun _ => .error () }

/-- Options requesting every companion class. -/
def c6opts : DownloadOptions :=
  { output_dir := [['o', 'u', 't']], fetch_pdf := true, fetch_zip := true,
    fetch_media := true }

theorem c6_companion_failures_witness :
    c6env.xmlResp = .ok (200, none)
    ∧ c6env.pdfResp = .ok 500
    ∧ (download_document c6env c4uri c6opts).1.status = statusSuccess :=
  ⟨rfl, rfl, c6_companion_failures c6env c4uri c6opts c10info none (by decide) rfl rfl rfl⟩

theorem listLoop_limit_eq (t : Int → PageResponse) (cfg : ListConfig) :
    ∀ (fuel : Nat) (page : Int) (p : ListParams),
      p ∈ (listLoop t cfg page fuel).2 → p.limit = cfg.limit := by
  intro fuel
  induction fuel with
  | zero => intro page p hp; simp [listLoop] at hp
  | succ n ih =>
    intro page p hp
    rw [listLoop] at hp
    split at hp
    · simp at hp
    · split at hp
      · simp at hp
        subst hp
        rfl
      · split at hp
        · simp at hp
          subst hp
          rfl
        · split at hp
          · simp at hp
            subst hp
            rfl
          · split at hp
            · simp at hp
              subst hp
              rfl
            · simp only [] at hp
              rcases List.mem_cons.mp hp with h | h
              · subst h; rfl
              · exact ih (page + 1) p h

/-- A transport answering every page with a server error (so the single
issued request's parameters are observable). -/
def c1t : Int → PageResponse := fun _ => { status_code := 500, body := none }

/-- A `ListConfig` handed to `list_documents` directly, with a limit above
the documented maximum. -/
def c1cfg : ListConfig :=
  { category := actSeg, document_type := "statute".toList,
    lang_and_version := "fin@".toList, limit := 50 }

theorem c1_limit_counterexample :
    ((list_documents c1t c1cfg 1).2.map ListParams.limit) = [50]
    ∧ ¬ ((50 : Int) ≤ 10) := by
  constructor
  · decide
  · decide

/-- C1 (amended): `list_documents` sends `config.limit` unclamped, but the
CLI constructs its `ListConfig` with `limit=min(args.limit, 10)`, so every
listing request issued through a CLI-built config carries a `limit` of at
most 10, whatever limit the caller asked for. -/
theorem c1_cli_clamps_limit (argsLimit : Int) (category document_type lang : Str)
    (startYear endYear maxPages : Option Int) (t : Int → PageResponse) (fuel : Nat)
    (p : ListParams)
    (hp : p ∈ (list_documents t
        (cli_list_config argsLimit category document_type lang startYear endYear maxPages)
        fuel).2) :
    p.limit ≤ 10 := by
  have h := listLoop_limit_eq t
    (cli_list_config argsLimit category document_type lang startYear endYear maxPages)
    fuel 1 p hp
  rw [h]
  exact min_le_right argsLimit 10

/-- The config the CLI builds when the caller asks for limit 50. -/
def c1wcfg : ListConfig :=
  cli_list_config 50 actSeg ("statute".toList) ("fin@".toList) none none none

theorem c1_cli_clamps_limit_witness :
    mkParams c1wcfg 1 ∈ (list_documents c1t c1wcfg 1).2
    ∧ (mkParams c1wcfg 1).limit ≤ 10 :=
  ⟨by decide,
   c1_cli_clamps_limit 50 actSeg ("statute".toList) ("fin@".toList) none none none
     c1t 1 (mkParams c1wcfg 1) (by decide)⟩

/-- C3: with page size 10 and pages of sizes 10, 10 and 3, the lister
yields the three pages' items in order (23 identifiers), and issues
exactly the three requests for pages 1, 2 and 3 — the transport is
unconstrained beyond page 3, so no fourth request can have been made. -/
theorem c3_pagination (t : Int → PageResponse) (cfg : ListConfig)
    (p1 p2 p3 : List (Str × Str)) (fuel : Nat)
    (h1 : t 1 = { status_code := 200, body := some p1 })
    (h2 : t 2 = { status_code := 200, body := some p2 })
    (h3 : t 3 = { status_code := 200, body := some p3 })
    (l1 : p1.length = 10) (l2 : p2.length = 10) (l3 : p3.length = 3)
    (hlim : cfg.limit = 10) (hmp : cfg.max_pages = none) (hfuel : 3 ≤ fuel) :
    (list_documents t cfg fuel).1 = (p1 ++ p2 ++ p3).map mkItem
    ∧ (list_documents t cfg fuel).1.length = 23
    ∧ (list_documents t cfg fuel).2.map ListParams.page = [1, 2, 3] := by
  obtain ⟨k, rfl⟩ := Nat.exists_eq_add_of_le hfuel
  rw [Nat.add_comm 3 k]
  have hne1 : ¬ p1 = [] := by intro h; rw [h] at l1; simp at l1
  have hne2 : ¬ p2 = [] := by intro h; rw [h] at l2; simp at l2
  have hne3 : ¬ p3 = [] := by intro h; rw [h] at l3; simp at l3
  have hres : list_documents t cfg (k + 3) =
      ((p1 ++ p2 ++ p3).map mkItem,
        [mkParams cfg 1, mkParams cfg 2, mkParams cfg 3]) := by
    show listLoop t cfg 1 (k + 3) = _
    rw [show k + 3 = (k + 2) + 1 from rfl, listLoop]
    simp only [hmp, maxPagesReached, h1, hne1, l1, hlim]
    norm_num
    rw [show k + 2 = (k + 1) + 1 from rfl, listLoop]
    simp only [hmp, maxPagesReached, h2, hne2, l2, hlim]
    norm_num
    rw [listLoop]
    simp only [hmp, maxPagesReached, h3, hne3, l3, hlim]
    norm_num
  rw [hres]
  refine ⟨rfl, ?_, ?_⟩
  · simp [List.length_append, l1, l2, l3]
  · simp [mkParams]

/-- Three concrete pages of sizes 10, 10 and 3 (item contents are
irrelevant to pagination). -/
def c3p1 : List (Str × Str) := List.replicate 10 ([], [])

/-- The short third page. -/
def c3p3 : List (Str × Str) := List.replicate 3 ([], [])

/-- A transport serving a full page everywhere except the short page 3. -/
def c3t : Int → PageResponse := fun page =>
  if page = 3 then { status_code := 200, body := some c3p3 }
  else { status_code := 200, body := some c3p1 }

/-- A config with the default page size 10 and no page cap. -/
def c3cfg : ListConfig :=
  { category := actSeg, document_type := "statute".toList,
    lang_and_version := "fin@".toList }

/-- A token admissible for the amended storage-path claim: non-empty,
slash-free and not the single-dot component that `pathlib` collapses. -/
def tokOk (t : Str) : Prop := t ≠ [] ∧ '/' ∉ t ∧ t ≠ ['.']

instance (t : Str) : Decidable (tokOk t) := by
  unfold tokOk
  infer_instance

theorem pathParts_self {segs : List Str} (h : ∀ s ∈ segs, tokOk s) :
    pathParts segs = segs := by
  induction segs with
  | nil => rfl
  | cons s rest ih =>
    obtain ⟨hne, hsl, hdot⟩ := h s (List.mem_cons_self s rest)
    have hrest := fun x hx => h x (List.mem_cons_of_mem s hx)
    have h1 : (s == []) = false := by simp [hne]
    have h2 : (s == ['.']) = false := by simp [hdot]
    rw [pathParts, splitSlash_no_slash hsl, ih hrest]
    simp [List.filter_cons, h1, h2, hne]

/-- Validity of coordinates as claim C9 states it, amended with the
single-dot exclusion: every field a non-empty slash-free non-dot token,
and the authority present exactly when the document type is
`authority-regulation`. -/
def c9valid (i : DocumentInfo) : Prop :=
  tokOk i.category ∧ tokOk i.document_type ∧ tokOk i.year ∧ tokOk i.number ∧
  tokOk i.lang_and_version ∧
  ((i.document_type = authRegSeg ∧ ∃ a, i.authority = some a ∧ tokOk a)
    ∨ (i.document_type ≠ authRegSeg ∧ i.authority = none))

/-- Coordinates whose document type is the single-dot token. -/
def c9a : DocumentInfo :=
  { category := actSeg, document_type := ['.'], year := ['1'], number := ['2'],
    lang_and_version := ['x'], authority := none }

/-- Distinct coordinates whose number is the single-dot token. -/
def c9b : DocumentInfo :=
  { category := actSeg, document_type := ['1'], year := ['2'], number := ['.'],
    lang_and_version := ['x'], authority := none }

/-- C9 counterexample: two distinct coordinate tuples, both valid in the
claim's sense (fields non-empty, slash-free, years digits-only, no
authority), collapse to the same storage path, because `pathlib` drops
single-dot components. -/
theorem c9_storage_counterexample :
    folder_path c9a = folder_path c9b
    ∧ c9a ≠ c9b
    ∧ c9a.document_type ≠ [] ∧ '/' ∉ c9a.document_type
    ∧ c9b.number ≠ [] ∧ '/' ∉ c9b.number
    ∧ c9a.year.all Char.isDigit ∧ c9b.year.all Char.isDigit
    ∧ c9a.document_type ≠ authRegSeg ∧ c9a.authority = none
    ∧ c9b.document_type ≠ authRegSeg ∧ c9b.authority = none := by
  refine ⟨by decide, by decide, by decide, by decide, by decide, by decide,
    by decide, by decide, by decide, rfl, by decide, rfl⟩

/-- C9 (amended): on coordinates whose fields are non-empty, slash-free
and not the single-dot component (authority present exactly for
`authority-regulation`), the derived storage path is injective. -/
theorem c9_storage_injective (i1 i2 : DocumentInfo)
    (h1 : c9valid i1) (h2 : c9valid i2)
    (heq : folder_path i1 = folder_path i2) : i1 = i2 := by
  obtain ⟨c1, t1, y1, n1, l1, a1⟩ := i1
  obtain ⟨c2, t2, y2, n2, l2, a2⟩ := i2
  obtain ⟨hc1, ht1, hy1, hn1, hl1, hA1⟩ := h1
  obtain ⟨hc2, ht2, hy2, hn2, hl2, hA2⟩ := h2
  cases a1 with
  | none =>
    cases a2 with
    | none =>
      simp only [folder_path, folderSegs] at heq
      rw [pathParts_self (by
            intro s hs
            simp only [List.mem_cons, List.not_mem_nil, or_false] at hs
            rcases hs with rfl | rfl | rfl | rfl | rfl
            exacts [hc1, ht1, hy1, hn1, hl1]),
          pathParts_self (by
            intro s hs
            simp only [List.mem_cons, List.not_mem_nil, or_false] at hs
            rcases hs with rfl | rfl | rfl | rfl | rfl
            exacts [hc2, ht2, hy2, hn2, hl2])] at heq
      simp only [List.cons.injEq, and_true] at heq
      obtain ⟨e1, e2, e3, e4, e5⟩ := heq
      subst e1; subst e2; subst e3; subst e4; subst e5
      rfl
    | some b =>
      rcases hA2 with ⟨htb, b', hb, htokb⟩ | ⟨_, hb⟩
      · injection hb with hb'
        subst hb'
        simp only [folder_path, folderSegs] at heq
        rw [if_pos htokb.1] at heq
        rw [pathParts_self (by
              intro s hs
              simp only [List.mem_cons, List.not_mem_nil, or_false] at hs
              rcases hs with rfl | rfl | rfl | rfl | rfl
              exacts [hc1, ht1, hy1, hn1, hl1]),
            pathParts_self (by
              intro s hs
              simp only [List.mem_cons, List.not_mem_nil, or_false] at hs
              rcases hs with rfl | rfl | rfl | rfl | rfl | rfl
              exacts [hc2, ht2, htokb, hy2, hn2, hl2])] at heq
        simp at heq
      · cases hb
  | some a =>
    rcases hA1 with ⟨hta, a', ha, htoka⟩ | ⟨_, ha⟩
    · injection ha with ha'
      subst ha'
      cases a2 with
      | none =>
        simp only [folder_path, folderSegs] at heq
        rw [if_pos htoka.1] at heq
        rw [pathParts_self (by
              intro s hs
              simp only [List.mem_cons, List.not_mem_nil, or_false] at hs
              rcases hs with rfl | rfl | rfl | rfl | rfl | rfl
              exacts [hc1, ht1, htoka, hy1, hn1, hl1]),
            pathParts_self (by
              intro s hs
              simp only [List.mem_cons, List.not_mem_nil, or_false] at hs
              rcases hs with rfl | rfl | rfl | rfl | rfl
              exacts [hc2, ht2, hy2, hn2, hl2])] at heq
        simp at heq
      | some b =>
        rcases hA2 with ⟨htb, b', hb, htokb⟩ | ⟨_, hb⟩
        · injection hb with hb'
          subst hb'
          simp only [folder_path, folderSegs] at heq
          rw [if_pos htoka.1, if_pos htokb.1] at heq
          rw [pathParts_self (by
                intro s hs
                simp only [List.mem_cons, List.not_mem_nil, or_false] at hs
                rcases hs with rfl | rfl | rfl | rfl | rfl | rfl
                exacts [hc1, ht1, htoka, hy1, hn1, hl1]),
              pathParts_self (by
                intro s hs
                simp only [List.mem_cons, List.not_mem_nil, or_false] at hs
                rcases hs with rfl | rfl | rfl | rfl | rfl | rfl
                exacts [hc2, ht2, htokb, hy2, hn2, hl2])] at heq
          simp only [List.cons.injEq, and_true] at heq
          obtain ⟨e1, e2, e3, e4, e5, e6⟩ := heq
          subst e1; subst e2; subst e3; subst e4; subst e5; subst e6
          rfl
        · cases hb
    · cases ha

theorem isPrefixOf_http_slash (xs : Str) : httpPrefix.isPrefixOf ('/' :: xs) = false := rfl

/-- A token admissible for the round-trip claim: non-empty and
slash-free (the shape the grammars' `[^/]+` groups capture). -/
def rtTok (t : Str) : Prop := t ≠ [] ∧ '/' ∉ t

instance (t : Str) : Decidable (rtTok t) := by
  unfold rtTok
  infer_instance

/-- C2 (amended): for valid coordinates — category one of `act`,
`judgment`, `doc`; year a non-empty digit string; the other fields
non-empty slash-free tokens; authority present exactly when the document
type is `authority-regulation` and then with category `doc`; and the
built path a fixed point of percent-decoding (no field contains a `%XX`
escape) — parsing the built API path returns exactly the original
coordinates. -/
theorem c2_roundtrip (info : DocumentInfo)
    (hcat : info.category = actSeg ∨ info.category = judgmentSeg ∨ info.category = docSeg)
    (hyear : info.year ≠ [] ∧ ∀ c ∈ info.year, c.isDigit)
    (htype : rtTok info.document_type)
    (hnum : rtTok info.number)
    (hlang : rtTok info.lang_and_version)
    (hauth : (info.document_type = authRegSeg ∧ info.category = docSeg ∧
        ∃ a, info.authority = some a ∧ rtTok a)
      ∨ (info.document_type ≠ authRegSeg ∧ info.authority = none))
    (hpct : unquote (build_api_path info) = build_api_path info) :
    parse_akn_uri (build_api_path info) = some info := by
  obtain ⟨cat, ty, yr, num, lang, auth⟩ := info
  have hyd : '/' ∉ yr := fun hm => absurd (hyear.2 '/' hm) (by decide)
  have alldig : yr.all Char.isDigit = true :=
    List.all_eq_true.mpr fun c hc => hyear.2 c hc
  rcases hauth with ⟨hta, hcd, a, ha, hatok⟩ | ⟨hta, ha⟩
  · subst hta
    subst hcd
    subst ha
    have hpath : build_api_path
        ⟨docSeg, authRegSeg, yr, num, lang, some a⟩ =
        joinSlash [[], aknSeg, fiSeg, docSeg, authRegSeg, a, yr, num, lang] := by
      simp only [build_api_path]
      rw [if_pos hatok.1]
    have hslash : ∀ s ∈ [[], aknSeg, fiSeg, docSeg, authRegSeg, a, yr, num, lang],
        '/' ∉ s := by
      intro s hs
      simp only [List.mem_cons, List.not_mem_nil, or_false] at hs
      rcases hs with rfl | rfl | rfl | rfl | rfl | rfl | rfl | rfl | rfl
      exacts [by decide, by decide, by decide, by decide, by decide,
        hatok.2, hyd, hnum.2, hlang.2]
    have hsplit : splitSlash
        (joinSlash [[], aknSeg, fiSeg, docSeg, authRegSeg, a, yr, num, lang]) =
        [[], aknSeg, fiSeg, docSeg, authRegSeg, a, yr, num, lang] :=
      splitSlash_joinSlash (by simp) hslash
    have hnp : httpPrefix.isPrefixOf
        (joinSlash [[], aknSeg, fiSeg, docSeg, authRegSeg, a, yr, num, lang]) = false :=
      isPrefixOf_http_slash _
    rw [hpath] at hpct ⊢
    have hder : derivePath
        (joinSlash [[], aknSeg, fiSeg, docSeg, authRegSeg, a, yr, num, lang]) =
        joinSlash [[], aknSeg, fiSeg, docSeg, authRegSeg, a, yr, num, lang] := by
      simp only [derivePath, hnp, Bool.false_eq_true, if_false]
      exact hpct
    have hA : authMatch
        (joinSlash [[], aknSeg, fiSeg, docSeg, authRegSeg, a, yr, num, lang]) =
        some ⟨docSeg, authRegSeg, yr, num, lang, some a⟩ := by
      simp only [authMatch]
      rw [hsplit]
      rw [authMatchSegs]
      rw [if_pos ⟨rfl, rfl, rfl, rfl, rfl, hatok.1, hyear.1, alldig, hnum.1, hlang.1⟩]
    simp only [parse_akn_uri]
    rw [hder, hA]
  · subst ha
    have hcatd : '/' ∉ cat := by rcases hcat with rfl | rfl | rfl <;> decide
    have hpath : build_api_path ⟨cat, ty, yr, num, lang, none⟩ =
        joinSlash [[], aknSeg, fiSeg, cat, ty, yr, num, lang] := rfl
    have hslash : ∀ s ∈ [[], aknSeg, fiSeg, cat, ty, yr, num, lang], '/' ∉ s := by
      intro s hs
      simp only [List.mem_cons, List.not_mem_nil, or_false] at hs
      rcases hs with rfl | rfl | rfl | rfl | rfl | rfl | rfl | rfl
      exacts [by decide, by decide, by decide, hcatd, htype.2, hyd, hnum.2, hlang.2]
    have hsplit : splitSlash (joinSlash [[], aknSeg, fiSeg, cat, ty, yr, num, lang]) =
        [[], aknSeg, fiSeg, cat, ty, yr, num, lang] :=
      splitSlash_joinSlash (by simp) hslash
    have hnp : httpPrefix.isPrefixOf
        (joinSlash [[], aknSeg, fiSeg, cat, ty, yr, num, lang]) = false :=
      isPrefixOf_http_slash _
    rw [hpath] at hpct ⊢
    have hder : derivePath (joinSlash [[], aknSeg, fiSeg, cat, ty, yr, num, lang]) =
        joinSlash [[], aknSeg, fiSeg, cat, ty, yr, num, lang] := by
      simp only [derivePath, hnp, Bool.false_eq_true, if_false]
      exact hpct
    have hA : authMatch (joinSlash [[], aknSeg, fiSeg, cat, ty, yr, num, lang]) =
        none := by
      simp only [authMatch]
      rw [hsplit]
      rfl
    have hS : stdMatch (joinSlash [[], aknSeg, fiSeg, cat, ty, yr, num, lang]) =
        some ⟨cat, ty, yr, num, lang, none⟩ := by
      simp only [stdMatch]
      rw [hsplit]
      rw [stdMatchSegs]
      rw [if_pos ⟨rfl, rfl, rfl, hcat, htype.1, hyear.1, alldig, hnum.1, hlang.1⟩]
    simp only [parse_akn_uri]
    rw [hder, hA]
    exact hS

/-- A valid authority-regulation coordinate tuple for the C2 witness. -/
def c2w : DocumentInfo :=
  { category := docSeg, document_type := authRegSeg, year := "1996".toList,
    number := "32082".toList, lang_and_version := "fin@".toList,
    authority := some ("metsahallitus".toList) }

theorem c2_roundtrip_witness :
    unquote (build_api_path c2w) = build_api_path c2w
    ∧ parse_akn_uri (build_api_path c2w) = some c2w :=
  ⟨by decide,
   c2_roundtrip c2w (Or.inr (Or.inr rfl)) ⟨by decide, by decide⟩ (by decide)
     (by decide) (by decide)
     (Or.inl ⟨rfl, rfl, "metsahallitus".toList, rfl, by decide⟩) (by decide)⟩

/-- Coordinates with a percent-escape in the number field. -/
def c2bad : DocumentInfo :=
  { category := actSeg, document_type := "statute".toList, year := "2024".toList,
    number := "%41".toList, lang_and_version := "fin@".toList, authority := none }

/-- Authority coordinates whose category is not `doc`. -/
def c2bad2 : DocumentInfo :=
  { category := actSeg, document_type := authRegSeg, year := "1996".toList,
    number := ['1'], lang_and_version := "fin@".toList,
    authority := some ['a', 'v', 'i'] }

/-- C2 counterexample: two coordinate tuples that are valid in the
claim's sense — fields non-empty slash-free tokens, year digits-only,
authority present exactly when the type is `authority-regulation` — but
do not round-trip: `%41` in a field is percent-decoded to `A` during
parsing, and an authority tuple whose category is `act` matches neither
grammar. -/
theorem c2_roundtrip_counterexample :
    parse_akn_uri (build_api_path c2bad) = some { c2bad with number := ['A'] }
    ∧ ({ c2bad with number := ['A'] } : DocumentInfo) ≠ c2bad
    ∧ c2bad.number ≠ [] ∧ '/' ∉ c2bad.number ∧ c2bad.authority = none
    ∧ c2bad.document_type ≠ authRegSeg ∧ c2bad.year.all Char.isDigit
    ∧ parse_akn_uri (build_api_path c2bad2) = none
    ∧ c2bad2.document_type = authRegSeg ∧ c2bad2.authority = some ['a', 'v', 'i'] := by
  refine ⟨by decide, by decide, by decide, by decide, rfl, by decide, by decide,
    by decide, rfl, rfl⟩

/-- A valid non-authority coordinate tuple for the C9 witness. -/
def c9w : DocumentInfo :=
  { category := actSeg, document_type := "statute".toList, year := "2024".toList,
    number := "123".toList, lang_and_version := "fin@".toList, authority := none }

theorem c9_storage_injective_witness : c9w = c9w :=
  c9_storage_injective c9w c9w
    ⟨by decide, by decide, by decide, by decide, by decide, Or.inr ⟨by decide, rfl⟩⟩
    ⟨by decide, by decide, by decide, by decide, by decide, Or.inr ⟨by decide, rfl⟩⟩
    rfl

theorem c3_pagination_witness :
    c3p1.length = 10 ∧ c3p3.length = 3
    ∧ (list_documents c3t c3cfg 5).1.length = 23
    ∧ (list_documents c3t c3cfg 5).2.map ListParams.page = [1, 2, 3] :=
  ⟨by decide, by decide,
   (c3_pagination c3t c3cfg c3p1 c3p1 c3p3 5 (by decide) (by decide) (by decide)
     (by decide) (by decide) (by decide) rfl rfl (by decide)).2.1,
   (c3_pagination c3t c3cfg c3p1 c3p1 c3p3 5 (by decide) (by decide) (by decide)
     (by decide) (by decide) (by decide) rfl rfl (by decide)).2.2⟩

end Finlex
